import Mathlib

/-
Verification development for the srp package (client.go, server.go).

The Go code is shallowly embedded as follows. Go byte slices are lists of
naturals, one entry per byte; a nil slice is the empty list. Go strings are
byte strings, so a string parameter is likewise a byte list and the Go
conversion from string to byte slice is the identity. big.Int values, which
the code only ever uses on nonnegative data, are Nat. Randomness is made
explicit: the package function getRandomBytes (declared outside the given
sources) is passed to each operation as a function from the requested length
to the drawn bytes, exactly where the Go code calls it.
-/

/-- Go byte slices, one natural number per byte; nil is the empty list. -/
abbrev Bytes := List Nat

/-- big.Int.SetBytes: interpret a byte slice as a big-endian unsigned integer. -/
def bytesToNat (l : Bytes) : Nat :=
  l.foldl (fun acc d => acc * 256 + d) 0

/-- big.Int.Bytes: the minimal big-endian byte representation of a
nonnegative integer; the representation of zero is the empty slice. -/
def natBytes (n : Nat) : Bytes :=
  if h : n = 0 then []
  else natBytes (n / 256) ++ [n % 256]
termination_by n
decreasing_by exact Nat.div_lt_self (Nat.pos_of_ne_zero h) (by decide)

/-- big.Int.Exp on nonnegative arguments: x^e mod n, or plain x^e when the
modulus is zero (as Go's Exp behaves). -/
def powMod (x e n : Nat) : Nat :=
  if n = 0 then x ^ e else x ^ e % n

/-- The Params structure from params.go (its definition is not among the
given sources; the fields are fixed by their uses in client.go and
server.go and by the package documentation): group modulus N, generator g,
and the crypto.Hash identifier H. -/
structure Params where
  N : Nat
  g : Nat
  H : Nat

/-- The Client structure of client.go: group/hash parameters, identity I,
password P, ephemeral secret a and public value A (both nil initially). -/
structure Client where
  params : Params
  I : Bytes
  P : Bytes
  a : Bytes
  A : Bytes

/-- The Server structure of server.go: group/hash parameters, ephemeral
secret b, public value B, stored verifier v, salt s, premaster secret S. -/
structure Server where
  params : Params
  b : Bytes
  B : Bytes
  v : Bytes
  s : Bytes
  S : Bytes

/-- NewServerWithParams of server.go: stores the given parameters and the
byte form of the verifier and salt strings; all other fields are Go zero
values (nil slices). -/
def NewServerWithParams (p : Params) (v s : Bytes) : Server :=
  ⟨p, [], [], v, s, []⟩

/-- NewServer of server.go. The Go code calls NewDefaultParams(), defined in
the package source that is not among the given files; the value it returns
is taken here as the explicit argument dp, so every statement below holds
for whatever NewDefaultParams returns. -/
def NewServer (dp : Params) (v s : Bytes) : Server :=
  NewServerWithParams dp v s

/-- NewClientWithParams of client.go: stores the given parameters, identity
and password; a and A are Go zero values (nil slices). -/
def NewClientWithParams (p : Params) (I P : Bytes) : Client :=
  ⟨p, I, P, [], []⟩

/-- NewClient of client.go; as with NewServer, the result of the missing
NewDefaultParams() is the explicit argument dp. -/
def NewClient (dp : Params) (I P : Bytes) : Client :=
  NewClientWithParams dp I P

/-- GenerateB of server.go: draws s.b := getRandomBytes(3), then computes
B := g^b mod N and returns its bytes. Note: no multiplier k and no use of
the stored verifier v. -/
def Server.GenerateB (sv : Server) (getRandomBytes : Nat → Bytes) :
    Server × Bytes :=
  let b := getRandomBytes 3
  let Bv := natBytes (powMod sv.params.g (bytesToNat b) sv.params.N)
  ({ sv with b := b, B := Bv }, Bv)

/-- GenerateA of client.go: draws c.a := getRandomBytes(3), then computes
A := g^a mod N and returns its bytes. -/
def Client.GenerateA (c : Client) (getRandomBytes : Nat → Bytes) :
    Client × Bytes :=
  let a := getRandomBytes 3
  let Av := natBytes (powMod c.params.g (bytesToNat a) c.params.N)
  ({ c with a := a, A := Av }, Av)

/-- SessionKey of client.go, verbatim: the body is `return nil, nil`. It
reads no field, takes no message argument, can return no error, and
performs no computation. -/
def Client.SessionKey (c : Client) : Bytes × Bytes :=
  ([], [])

/-- Modelled from the spec: the function pad (PAD) is named in the package
documentation but its code is not among the given sources. Per the spec,
byteLength is the byte length of an integer, used on the modulus N. -/
def byteLength (n : Nat) : Nat :=
  (natBytes n).length

/-- Modelled from the spec: pad(x) left-pads the big-endian byte
representation of the integer x with zero bytes to exactly the byte length
of the modulus N. -/
def pad (p : Params) (x : Nat) : Bytes :=
  List.replicate (byteLength p.N - (natBytes x).length) 0 ++ natBytes x

/- Helper lemmas about byte representations. -/

theorem natBytes_of_ne_zero (n : Nat) (h : n ≠ 0) :
    natBytes n = natBytes (n / 256) ++ [n % 256] := by
  rw [natBytes]
  simp [h]

theorem natBytes_length_of_ne_zero (n : Nat) (h : n ≠ 0) :
    (natBytes n).length = (natBytes (n / 256)).length + 1 := by
  rw [natBytes_of_ne_zero n h]
  simp

theorem natBytes_length_mono (x y : Nat) (hxy : x ≤ y) :
    (natBytes x).length ≤ (natBytes y).length := by
  induction y using Nat.strong_induction_on generalizing x with
  | _ y ih =>
    by_cases hx : x = 0
    · subst hx
      rw [natBytes]
      simp
    · have hy : y ≠ 0 := by
        intro h
        exact hx (Nat.le_zero.mp (h ▸ hxy))
      rw [natBytes_length_of_ne_zero x hx, natBytes_length_of_ne_zero y hy]
      have hlt : y / 256 < y := Nat.div_lt_self (Nat.pos_of_ne_zero hy) (by decide)
      exact Nat.succ_le_succ (ih (y / 256) hlt (x / 256) (Nat.div_le_div_right hxy))

theorem foldl_byte_bound (l : Bytes) :
    ∀ acc : Nat, (∀ d ∈ l, d < 256) →
      l.foldl (fun a d => a * 256 + d) acc < (acc + 1) * 256 ^ l.length := by
  induction l with
  | nil =>
    intro acc _
    simpa using Nat.lt_succ_self acc
  | cons d t ih =>
    intro acc hall
    have hd : d < 256 := hall d (List.mem_cons_self d t)
    have ht : ∀ e ∈ t, e < 256 := fun e he => hall e (List.mem_cons_of_mem d he)
    have h1 : t.foldl (fun a d => a * 256 + d) (acc * 256 + d)
        < (acc * 256 + d + 1) * 256 ^ t.length := ih (acc * 256 + d) ht
    have h2 : (acc * 256 + d + 1) * 256 ^ t.length
        ≤ ((acc + 1) * 256) * 256 ^ t.length := by
      have : acc * 256 + d + 1 ≤ (acc + 1) * 256 := by omega
      exact Nat.mul_le_mul_right _ this
    have h3 : ((acc + 1) * 256) * 256 ^ t.length = (acc + 1) * 256 ^ (t.length + 1) := by
      ring
    calc (d :: t).foldl (fun a d => a * 256 + d) acc
        = t.foldl (fun a d => a * 256 + d) (acc * 256 + d) := by simp [List.foldl]
      _ < (acc * 256 + d + 1) * 256 ^ t.length := h1
      _ ≤ ((acc + 1) * 256) * 256 ^ t.length := h2
      _ = (acc + 1) * 256 ^ (t.length + 1) := h3
      _ = (acc + 1) * 256 ^ (d :: t).length := by simp

theorem bytesToNat_lt (l : Bytes) (h : ∀ d ∈ l, d < 256) :
    bytesToNat l < 256 ^ l.length := by
  have := foldl_byte_bound l 0 h
  simpa [bytesToNat] using this

/- Theorems settling the claims. -/

/-- Claim C1. The claim states that an honest run of the authentication path
yields identical premaster secret S and session key K on both sides, with
both evidence checks succeeding. The code cannot do this: Client.SessionKey
is a stub returning (nil, nil) for every client state, so no S or K is ever
derived on the client side (and the Server type has no session-key or
evidence operation at all). -/
theorem client_sessionKey_never_computes_S (c : Client) :
    c.SessionKey = ([], []) := rfl

/-- Claim C2. The claim states B = (k*v + g^b) mod N with k = H(N || PAD(g)).
The code's GenerateB instead returns the bytes of g^b mod N: it never
computes k, and its output is independent of the stored verifier v. -/
theorem generateB_omits_multiplier_and_verifier (p : Params) (v v' s : Bytes)
    (src : Nat → Bytes) :
    ((NewServerWithParams p v s).GenerateB src).2
        = natBytes (powMod p.g (bytesToNat (src 3)) p.N) ∧
    ((NewServerWithParams p v s).GenerateB src).2
        = ((NewServerWithParams p v' s).GenerateB src).2 :=
  ⟨rfl, rfl⟩

/-- Claim C3. The claim states that sessionKey aborts with
ProtocolAbort(ZeroPublicValue) when the received public value is divisible
by N, without computing S. The code's SessionKey takes no public value,
has no error result, and returns (nil, nil) unconditionally: here evaluated
on a client mid-protocol with N = 7, g = 3, a = [2], A = [2], for which a
received B = 7 (so B mod N = 0) would have to abort. -/
theorem sessionKey_no_zero_value_abort :
    Client.SessionKey ⟨⟨7, 3, 11⟩, [105], [112], [2], [2]⟩ = ([], []) := rfl

/-- Claim C4. The claim states that the ephemeral exponents a and b are at
least 256 bits. Both GenerateA and GenerateB draw them as getRandomBytes(3),
three bytes: whenever the random source returns the requested number of
byte-valued entries, the resulting exponent is below 2^24, hence far below
any 256-bit value. -/
theorem ephemeral_secrets_under_24_bits (c : Client) (sv : Server)
    (src : Nat → Bytes) (hlen : (src 3).length = 3)
    (hbyte : ∀ d ∈ src 3, d < 256) :
    bytesToNat ((c.GenerateA src).1.a) < 2 ^ 24 ∧
    bytesToNat ((sv.GenerateB src).1.b) < 2 ^ 24 := by
  have h := bytesToNat_lt (src 3) hbyte
  rw [hlen] at h
  have h24 : (256 : Nat) ^ 3 = 2 ^ 24 := by norm_num
  rw [h24] at h
  exact ⟨h, h⟩

theorem ephemeral_secrets_under_24_bits_witness :
    bytesToNat ((Client.GenerateA ⟨⟨7, 3, 11⟩, [], [], [], []⟩
        (fun n => List.replicate n 0)).1.a) < 2 ^ 24 ∧
    bytesToNat ((Server.GenerateB ⟨⟨7, 3, 11⟩, [], [], [1], [2], []⟩
        (fun n => List.replicate n 0)).1.b) < 2 ^ 24 :=
  ephemeral_secrets_under_24_bits _ _ _ (by decide) (by decide)

/-- Claim C5. The claim states that calling sessionKey before keyExchange
fails with InvalidSessionState. The code tracks no session state and has no
error result: on a freshly constructed client, before any GenerateA call,
SessionKey returns (nil, nil) instead of failing. -/
theorem fresh_session_sessionKey_no_state_error (dp : Params) (I P : Bytes) :
    (NewClient dp I P).SessionKey = ([], []) := rfl

/-- Claim C6. The claim states that both sides compute
u = H(PAD(A) || PAD(B)) and abort with ZeroScramblingParameter when u = 0.
The client's SessionKey computes nothing at all: its result is the same for
every pair of client states, so no u is ever derived or checked (and the
Server type has no session-key operation). -/
theorem sessionKey_ignores_all_state (c c' : Client) :
    c.SessionKey = c'.SessionKey := rfl

/-- Claim C7. pad(x) has output length exactly byteLength(N) for every
x < N, and is the zero-left-padded big-endian representation of x. -/
theorem pad_length_eq_byteLength (p : Params) (x : Nat) (hx : x < p.N) :
    (pad p x).length = byteLength p.N ∧
    pad p x = List.replicate (byteLength p.N - (natBytes x).length) 0
        ++ natBytes x := by
  refine ⟨?_, rfl⟩
  have hmono : (natBytes x).length ≤ (natBytes p.N).length :=
    natBytes_length_mono x p.N (Nat.le_of_lt hx)
  simp [pad, byteLength, Nat.sub_add_cancel hmono]

theorem pad_length_eq_byteLength_witness :
    ((pad ⟨300, 2, 11⟩ 0).length = byteLength 300 ∧
      pad ⟨300, 2, 11⟩ 0 = List.replicate (byteLength 300 - (natBytes 0).length) 0
        ++ natBytes 0) ∧
    ((pad ⟨300, 2, 11⟩ 299).length = byteLength 300 ∧
      pad ⟨300, 2, 11⟩ 299 = List.replicate (byteLength 300 - (natBytes 299).length) 0
        ++ natBytes 299) :=
  ⟨pad_length_eq_byteLength ⟨300, 2, 11⟩ 0 (by decide),
   pad_length_eq_byteLength ⟨300, 2, 11⟩ 299 (by decide)⟩

/-- Claim C8. SessionKey is a pure function of the stored session (in the
code it reads no randomness and mutates nothing, so two calls on an
untouched session agree; in src it is the constant (nil, nil)); GenerateA
draws fresh bytes on every call, overwriting both a and A: after a second
call the stored exponent is the second draw, the stored (and returned)
public value A is recomputed as g^a mod N from that fresh draw rather than
carried over from the first call, and with distinct draws the second
exponent differs from the first. -/
theorem sessionKey_pure_generateA_fresh (c : Client) (src1 src2 : Nat → Bytes)
    (hne : src1 3 ≠ src2 3) :
    c.SessionKey = ([], []) ∧
    ((c.GenerateA src1).1.GenerateA src2).1.a = src2 3 ∧
    ((c.GenerateA src1).1.GenerateA src2).1.A
        = natBytes (powMod c.params.g (bytesToNat (src2 3)) c.params.N) ∧
    ((c.GenerateA src1).1.GenerateA src2).2
        = ((c.GenerateA src1).1.GenerateA src2).1.A ∧
    ((c.GenerateA src1).1.GenerateA src2).1.a ≠ (c.GenerateA src1).1.a := by
  refine ⟨rfl, rfl, rfl, rfl, ?_⟩
  intro h
  exact hne h.symm

theorem sessionKey_pure_generateA_fresh_witness :
    Client.SessionKey ⟨⟨7, 3, 11⟩, [], [], [], []⟩ = ([], []) ∧
    ((Client.GenerateA ⟨⟨7, 3, 11⟩, [], [], [], []⟩
        (fun _ => [1])).1.GenerateA (fun _ => [2])).1.a = [2] ∧
    ((Client.GenerateA ⟨⟨7, 3, 11⟩, [], [], [], []⟩
        (fun _ => [1])).1.GenerateA (fun _ => [2])).1.A
        = natBytes (powMod 3 (bytesToNat [2]) 7) ∧
    ((Client.GenerateA ⟨⟨7, 3, 11⟩, [], [], [], []⟩
        (fun _ => [1])).1.GenerateA (fun _ => [2])).2
        = ((Client.GenerateA ⟨⟨7, 3, 11⟩, [], [], [], []⟩
        (fun _ => [1])).1.GenerateA (fun _ => [2])).1.A ∧
    ((Client.GenerateA ⟨⟨7, 3, 11⟩, [], [], [], []⟩
        (fun _ => [1])).1.GenerateA (fun _ => [2])).1.a
      ≠ (Client.GenerateA ⟨⟨7, 3, 11⟩, [], [], [], []⟩ (fun _ => [1])).1.a :=
  sessionKey_pure_generateA_fresh ⟨⟨7, 3, 11⟩, [], [], [], []⟩
    (fun _ => [1]) (fun _ => [2]) (by decide)

/-- Claim C10. All four constructors are total functions performing no
validation: they store the verifier, salt, identity and password byte
strings exactly as given (Go strings are byte strings, so the conversion to
a byte slice is the identity), with no hex decoding, range check or
group-membership check. -/
theorem constructors_store_raw_bytes (dp p : Params) (v s I P : Bytes) :
    (NewServer dp v s).v = v ∧ (NewServer dp v s).s = s ∧
    (NewServerWithParams p v s).v = v ∧ (NewServerWithParams p v s).s = s ∧
    (NewServerWithParams p v s).params = p ∧
    (NewClient dp I P).I = I ∧ (NewClient dp I P).P = P ∧
    (NewClientWithParams p I P).I = I ∧ (NewClientWithParams p I P).P = P ∧
    (NewClientWithParams p I P).params = p :=
  ⟨rfl, rfl, rfl, rfl, rfl, rfl, rfl, rfl, rfl, rfl⟩
